import Mathlib

/-!
# Verification of the xwin package resolver

A shallow embedding of the resolver in `src/lib.rs` (`prune_pkg_list`,
`get_crt`, `get_sdk`, `to_payload` and the `Arch`/`Variant` enumerations),
together with theorems settling the specification claims about it.

The `manifest` module of the repository is not part of the sources here;
its data model (package items keyed by id in a `BTreeMap`, payload
descriptors, the ordering of items) is modelled from the specification,
as noted on the corresponding definitions.
-/

set_option linter.unusedVariables false

/-! ## String helpers (Rust `str` operations, on `String.data` char lists) -/

/-- Substring occurrence test on character lists: `subOf p l` is true when `p`
occurs contiguously inside `l`.  This is the semantics of Rust `str::contains`. -/
def subOf (p : List Char) : List Char → Bool
  | [] => p.isEmpty
  | c :: rest => p.isPrefixOf (c :: rest) || subOf p rest

/-- Rust `str::contains` (substring containment). -/
def strContains (s pat : String) : Bool := subOf pat.data s.data

/-- Rust `str::starts_with`. -/
def strStarts (s pat : String) : Bool := pat.data.isPrefixOf s.data

/-- Rust `str::ends_with`. -/
def strEnds (s pat : String) : Bool := pat.data.isSuffixOf s.data

/-- Rust `str::strip_prefix`: remove `pat` from the front of `s` when present. -/
def dropPre (s pat : String) : Option String :=
  if pat.data.isPrefixOf s.data then some ⟨s.data.drop pat.data.length⟩ else none

/-- Rust `str::strip_suffix`: remove `pat` from the end of `s` when present. -/
def dropSuf (s pat : String) : Option String :=
  if pat.data.isSuffixOf s.data then some ⟨s.data.take (s.data.length - pat.data.length)⟩
  else none

/-- Fuel-indexed worker for `strReplace`; the fuel starts at the length of the
scanned list, which never runs out because each step consumes at least one
character. -/
def replaceGo (pat rep : List Char) : Nat → List Char → List Char
  | 0, s => s
  | fuel + 1, s =>
    match s with
    | [] => []
    | c :: rest =>
      if pat.isPrefixOf (c :: rest) && !pat.isEmpty then
        rep ++ replaceGo pat rep fuel ((c :: rest).drop pat.length)
      else
        c :: replaceGo pat rep fuel rest

/-- Rust `str::replace`: replace every non-overlapping occurrence of `pat` in
`s` by `rep`, scanning left to right. -/
def strReplace (s pat rep : String) : String :=
  ⟨replaceGo pat.data rep.data s.data.length s.data⟩

/-! ## Error plumbing (`anyhow::Context` on `Option`, fallible loops) -/

/-- `Option::context` from the Rust code: turn `none` into an error message. -/
def orCtx (o : Option α) (msg : String) : Except String α :=
  match o with
  | some a => Except.ok a
  | none => Except.error msg

/-- Effectful map over a list in the `Except String` monad, stopping at the
first error; this is the shape of the `for` loops in `get_crt`/`get_sdk`. -/
def exMapM (f : α → Except String β) : List α → Except String (List β)
  | [] => Except.ok []
  | a :: l =>
    match f a with
    | Except.error e => Except.error e
    | Except.ok b =>
      match exMapM f l with
      | Except.error e => Except.error e
      | Except.ok bs => Except.ok (b :: bs)

/-! ## Architectures and variants (`Arch`, `Variant` in src/lib.rs) -/

/-- Target architectures, bit-flag encoded (`Arch` in src/lib.rs). -/
inductive Arch where
  | X86
  | X86_64
  | Aarch
  | Aarch64
deriving DecidableEq, Repr, Fintype

/-- The `u32` discriminant of each architecture flag. -/
def Arch.val : Arch → Nat
  | .X86 => 0x1
  | .X86_64 => 0x2
  | .Aarch => 0x4
  | .Aarch64 => 0x8

/-- `Arch::as_str` — the canonical architecture name (also its `Display`). -/
def Arch.as_str : Arch → String
  | .X86 => "x86"
  | .X86_64 => "x86_64"
  | .Aarch => "aarch"
  | .Aarch64 => "aarch64"

/-- `Arch::as_ms_str` — the vendor-specific architecture token. -/
def Arch.as_ms_str : Arch → String
  | .X86 => "x86"
  | .X86_64 => "x64"
  | .Aarch => "arm"
  | .Aarch64 => "arm64"

/-- `Arch::iter` — the architectures whose flag is set in the mask, in the
fixed order x86, x86_64, aarch, aarch64. -/
def Arch.iter (val : Nat) : List Arch :=
  [Arch.X86, Arch.X86_64, Arch.Aarch, Arch.Aarch64].filter
    (fun arch => decide (arch.val &&& val ≠ 0))

/-- CRT variants, bit-flag encoded (`Variant` in src/lib.rs); spectre is an
orthogonal modifier. -/
inductive Variant where
  | Desktop
  | OneCore
  | Store
  | Spectre
deriving DecidableEq, Repr, Fintype

/-- The `u32` discriminant of each variant flag. -/
def Variant.val : Variant → Nat
  | .Desktop => 0x1
  | .OneCore => 0x2
  | .Store => 0x4
  | .Spectre => 0x8

/-- `Variant::iter` — the manifest name of every non-spectre variant whose flag
is set in the mask, in the fixed order Desktop, OneCore, Store. -/
def Variant.iter (val : Nat) : List String :=
  [(Variant.Desktop, "Desktop"), (Variant.OneCore, "OneCore.Desktop"),
    (Variant.Store, "Store")].filterMap
    (fun p => if p.1.val &&& val ≠ 0 then some p.2 else none)

/-! ## Manifest data model -/

/-- Modelled from the spec: a raw payload descriptor of the external manifest
(`manifest::Payload`, not under src/): file name, checksum, url and size. -/
structure ManifestPayload where
  file_name : String
  sha256 : String
  url : String
  size : Nat
deriving DecidableEq, Repr

/-- Modelled from the spec: the optional install-size hint of a manifest item
(`manifest::InstallSizes`, not under src/). -/
structure InstallSizes where
  target_drive : Option Nat
deriving DecidableEq, Repr

/-- Modelled from the spec: a manifest package item (`manifest::ManifestItem`,
not under src/): id, dependency map (key-ordered association list), ordered
payload descriptors, optional install-size hint. -/
structure ManifestItem where
  id : String
  dependencies : List (String × String)
  payloads : List ManifestPayload
  install_sizes : Option InstallSizes
deriving DecidableEq, Repr

/-- Modelled from the spec: the package manifest is a `BTreeMap` from package
id to item, represented as its key-ordered entry list. -/
abbrev PkgMap := List (String × ManifestItem)

/-- Modelled from the spec: `BTreeMap::get` — lookup of the first entry with
the given key. -/
def mapGet (pkgs : PkgMap) (key : String) : Option ManifestItem :=
  match pkgs with
  | [] => none
  | (k, mi) :: rest => if key = k then some mi else mapGet rest key

/-- Modelled from the spec: `Iterator::max` over manifest items, which the
spec orders by id ("maximal id ordering"); the last maximal element wins,
as for Rust's `Iterator::max`. -/
def maxItem (l : List ManifestItem) : Option ManifestItem :=
  l.foldl
    (fun acc mi =>
      match acc with
      | none => some mi
      | some best => if best.id ≤ mi.id then some mi else some best)
    none

/-! ## Resolved payloads -/

/-- `PayloadKind` in src/lib.rs. -/
inductive PayloadKind where
  | CrtHeaders
  | CrtLibs
  | SdkHeaders
  | SdkLibs
  | SdkStoreLibs
  | Ucrt
deriving DecidableEq, Repr

/-- `Payload` in src/lib.rs — a resolved payload descriptor. -/
structure Payload where
  filename : String
  sha256 : String
  url : String
  size : Nat
  install_size : Option Nat
  kind : PayloadKind
  target_arch : Option Arch
  variant : Option Variant
deriving DecidableEq, Repr

/-! ## CRT resolution (`get_crt` and its helper `to_payload`) -/

/-- The target-architecture matcher of `to_payload`: first match wins over the
token list x64, arm64, ARM64, arm, x86 (more specific tokens first). -/
def detectArch (name : String) : Option Arch :=
  [("x64", Arch.X86_64), ("arm64", Arch.Aarch64), ("ARM64", Arch.Aarch64),
    ("arm", Arch.Aarch), ("x86", Arch.X86)].findSome?
    (fun p => if strContains name p.1 then some p.2 else none)

/-- The variant matcher of `to_payload`: first match wins over the token list
OneCore, Desktop, Store (OneCore before Desktop). -/
def detectVariant (name : String) : Option Variant :=
  [("OneCore", Variant.OneCore), ("Desktop", Variant.Desktop),
    ("Store", Variant.Store)].findSome?
    (fun p => if strContains name p.1 then some p.2 else none)

/-- `to_payload` in `get_crt`: build a resolved CRT payload from a manifest
item and one of its payload descriptors. -/
def to_payload (mi : ManifestItem) (payload : ManifestPayload) : Payload :=
  { filename :=
      if detectArch payload.file_name = some Arch.Aarch64 then
        strReplace payload.file_name "ARM" "arm"
      else payload.file_name
    sha256 := payload.sha256
    url := payload.url
    size := payload.size
    install_size :=
      if mi.payloads.length = 1 then mi.install_sizes.bind (fun s => s.target_drive)
      else none
    kind :=
      if strContains mi.id "Headers" then PayloadKind.CrtHeaders else PayloadKind.CrtLibs
    target_arch := detectArch payload.file_name
    variant := detectVariant payload.file_name }

/-- The dependency-key pattern of the CRT version scan: strip the fixed
component prefix and the `.x86.x64` suffix. -/
def vcStrip (key : String) : Option String :=
  (dropPre key "Microsoft.VisualStudio.Component.VC.").bind
    (fun s => dropSuf s ".x86.x64")

/-- The CRT version selection of `get_crt`: the last match over the
build-tools item's dependency keys. -/
def crtVersionOf (bt : ManifestItem) : Option String :=
  ((bt.dependencies.map Prod.fst).filterMap vcStrip).getLast?

/-- The CRT-libs lookup id synthesized by `get_crt` for one arch × variant
combination (the `write!` format string, including the upper-cased ARM64
token and the conditional spectre suffix). -/
def mkCrtLibId (version : String) (arch : Arch) (variantStr : String) (spectre : Bool) :
    String :=
  "Microsoft.VC." ++ version ++ ".CRT." ++
    (if arch = Arch.Aarch64 then "ARM64" else arch.as_ms_str) ++ "." ++ variantStr ++
    (if spectre && decide (variantStr ≠ "Store") then ".spectre" else "") ++ ".base"

/-- One iteration of the CRT-libs loop: a lookup miss is skipped (`none`),
a hit emits the payload of the found item (indexing its first payload). -/
def crtLibOne (pkgs : PkgMap) (id : String) : Except String (Option Payload) :=
  match mapGet pkgs id with
  | some item =>
    match item.payloads.head? with
    | some pl => Except.ok (some (to_payload item pl))
    | none => Except.error ("index out of bounds: " ++ id)
  | none => Except.ok none

/-- The arch × variant combinations visited by the CRT-libs loop, in loop
order: per arch, then per variant. -/
def crtCombos (arches variants : Nat) : List (Arch × String) :=
  (Arch.iter arches).flatMap (fun a => (Variant.iter variants).map (fun vs => (a, vs)))

/-- `get_crt` in src/lib.rs: CRT headers payload followed by the CRT libs
payloads for every requested arch × variant combination (Store force-added). -/
def get_crt (pkgs : PkgMap) (arches variants : Nat) : Except String (List Payload) := do
  let build_tools ← orCtx (mapGet pkgs "Microsoft.VisualStudio.Product.BuildTools")
    "unable to find root BuildTools item"
  let crt_version ← orCtx (crtVersionOf build_tools) "unable to find latest CRT version"
  let header_key := "Microsoft.VC." ++ crt_version ++ ".CRT.Headers.base"
  let crt_headers ← orCtx (mapGet pkgs header_key)
    ("unable to find CRT headers item '" ++ header_key ++ "'")
  let hp ← orCtx crt_headers.payloads.head? ("index out of bounds: " ++ header_key)
  let spectre := decide (variants &&& Variant.val Variant.Spectre ≠ 0)
  let opts ← exMapM (fun av => crtLibOne pkgs (mkCrtLibId crt_version av.1 av.2 spectre))
    (crtCombos arches (variants ||| Variant.val Variant.Store))
  pure (to_payload crt_headers hp :: opts.filterMap (fun o => o))

/-! ## SDK resolution (`get_sdk`) -/

/-- The generic x86 desktop-headers payload of the SDK item (always included). -/
def sdkGenericHeadersPayload (sdk : ManifestItem) (pl : ManifestPayload) : Payload :=
  { filename := sdk.id ++ "_headers.msi"
    sha256 := pl.sha256
    url := pl.url
    size := pl.size
    install_size := none
    kind := PayloadKind.SdkHeaders
    target_arch := none
    variant := none }

/-- The store-apps headers payload of the SDK item (always included). -/
def sdkStoreHeadersPayload (sdk : ManifestItem) (pl : ManifestPayload) : Payload :=
  { filename := sdk.id ++ "_store_headers.msi"
    sha256 := pl.sha256
    url := pl.url
    size := pl.size
    install_size := none
    kind := PayloadKind.SdkHeaders
    target_arch := none
    variant := none }

/-- The per-architecture desktop-headers payload of the SDK item. -/
def sdkArchHeadersPayload (sdk : ManifestItem) (arch : Arch) (pl : ManifestPayload) :
    Payload :=
  { filename := sdk.id ++ "_" ++ arch.as_ms_str ++ "_headers.msi"
    sha256 := pl.sha256
    url := pl.url
    size := pl.size
    install_size := none
    kind := PayloadKind.SdkHeaders
    target_arch := some arch
    variant := none }

/-- The per-architecture desktop-libs payload of the SDK item (the file name
uses the canonical arch name, via `Display`). -/
def sdkLibsPayload (sdk : ManifestItem) (arch : Arch) (pl : ManifestPayload) : Payload :=
  { filename := sdk.id ++ "_libs_" ++ arch.as_str ++ ".msi"
    sha256 := pl.sha256
    url := pl.url
    size := pl.size
    install_size := none
    kind := PayloadKind.SdkLibs
    target_arch := some arch
    variant := none }

/-- The store-apps libs payload of the SDK item (always included). -/
def sdkStoreLibsPayload (sdk : ManifestItem) (pl : ManifestPayload) : Payload :=
  { filename := sdk.id ++ "_store_libs.msi"
    sha256 := pl.sha256
    url := pl.url
    size := pl.size
    install_size := none
    kind := PayloadKind.SdkStoreLibs
    target_arch := none
    variant := none }

/-- The Universal CRT payload (always included). -/
def ucrtPayload (pl : ManifestPayload) : Payload :=
  { filename := "ucrt.msi"
    sha256 := pl.sha256
    url := pl.url
    size := pl.size
    install_size := none
    kind := PayloadKind.Ucrt
    target_arch := none
    variant := none }

/-- The SDK per-arch desktop-headers matcher: strip the installer prefix and
the locale suffix and compare the remainder with the vendor arch token. -/
def sdkArchHdrPred (arch : Arch) (pl : ManifestPayload) : Bool :=
  match (dropPre pl.file_name "Installers\\Windows SDK Desktop Headers ").bind
      (fun f => dropSuf f "-x86_en-us.msi") with
  | some f => decide (f = arch.as_ms_str)
  | none => false

/-- The SDK per-arch desktop-libs matcher: strip the installer prefix and the
locale suffix and compare the remainder with the vendor arch token. -/
def sdkArchLibPred (arch : Arch) (pl : ManifestPayload) : Bool :=
  match (dropPre pl.file_name "Installers\\Windows SDK Desktop Libs ").bind
      (fun f => dropSuf f "-x86_en-us.msi") with
  | some f => decide (f = arch.as_ms_str)
  | none => false

/-- One iteration of the per-arch SDK headers loop. -/
def sdkArchHeaderOne (sdk : ManifestItem) (arch : Arch) : Except String Payload :=
  match sdk.payloads.find? (sdkArchHdrPred arch) with
  | some pl => Except.ok (sdkArchHeadersPayload sdk arch pl)
  | none => Except.error ("unable to find " ++ arch.as_str ++ " headers for " ++ sdk.id)

/-- One iteration of the per-arch SDK libs loop. -/
def sdkArchLibOne (sdk : ManifestItem) (arch : Arch) : Except String Payload :=
  match sdk.payloads.find? (sdkArchLibPred arch) with
  | some pl => Except.ok (sdkLibsPayload sdk arch pl)
  | none => Except.error ("unable to find SDK libs for '" ++ arch.as_str ++ "'")

/-- `get_sdk` in src/lib.rs: generic and store headers, per-arch headers
(skipping x86), per-arch libs, store libs, then the Universal CRT. -/
def get_sdk (pkgs : PkgMap) (arches : Nat) : Except String (List Payload) := do
  let sdk ← orCtx
    (maxItem ((pkgs.map Prod.snd).filter (fun mi => strStarts mi.id "Win10SDK_10.")))
    "unable to find latest Win10SDK version"
  let h1 ← orCtx
    (sdk.payloads.find?
      (fun pl => strEnds pl.file_name "Windows SDK Desktop Headers x86-x86_en-us.msi"))
    ("unable to find headers for " ++ sdk.id)
  let h2 ← orCtx
    (sdk.payloads.find?
      (fun pl =>
        strEnds pl.file_name "Windows SDK for Windows Store Apps Headers-x86_en-us.msi"))
    ("unable to find Windows SDK for Windows Store Apps Headers-x86_en-us.msi for " ++
      sdk.id)
  let archHdrs ← exMapM (sdkArchHeaderOne sdk)
    ((Arch.iter arches).filter (fun a => decide (a ≠ Arch.X86)))
  let archLibs ← exMapM (sdkArchLibOne sdk) (Arch.iter arches)
  let sl ← orCtx
    (sdk.payloads.find?
      (fun pl =>
        strEnds pl.file_name "Windows SDK for Windows Store Apps Libs-x86_en-us.msi"))
    ("unable to find Windows SDK for Windows Store Apps Libs-x86_en-us.msi for " ++ sdk.id)
  let ucrt ← orCtx (mapGet pkgs "Microsoft.Windows.UniversalCRT.HeadersLibsSources.Msi")
    "unable to find Universal CRT"
  let msi ← orCtx
    (ucrt.payloads.find?
      (fun pl =>
        decide (pl.file_name = "Universal CRT Headers Libraries and Sources-x86_en-us.msi")))
    "unable to find Universal CRT MSI"
  pure (sdkGenericHeadersPayload sdk h1 :: sdkStoreHeadersPayload sdk h2 ::
    (archHdrs ++ archLibs ++ [sdkStoreLibsPayload sdk sl, ucrtPayload msi]))

/-- `prune_pkg_list` in src/lib.rs: the resolver entry point — the CRT
payloads followed by the SDK payloads. -/
def prune_pkg_list (pkgs : PkgMap) (arches variants : Nat) :
    Except String (List Payload) := do
  let crt ← get_crt pkgs arches variants
  let sdk ← get_sdk pkgs arches
  pure (crt ++ sdk)

/-! ## Demo manifest (concrete witness data) -/

/-- Demo build-tools item. -/
def demoBt : ManifestItem :=
  { id := "Microsoft.VisualStudio.Product.BuildTools"
    dependencies := [("Microsoft.VisualStudio.Component.VC.14.29.16.10.x86.x64", "required")]
    payloads := []
    install_sizes := none }

/-- Demo CRT headers payload descriptor. -/
def demoHp : ManifestPayload :=
  { file_name := "Microsoft.VC.14.29.16.10.CRT.Headers.base.vsix"
    sha256 := "aa11", url := "https://dl/crt-headers", size := 100 }

/-- Demo CRT headers item. -/
def demoCrtHeaders : ManifestItem :=
  { id := "Microsoft.VC.14.29.16.10.CRT.Headers.base"
    dependencies := []
    payloads := [demoHp]
    install_sizes := some { target_drive := some 500 } }

/-- Demo CRT x64 Desktop libs payload descriptor. -/
def demoDp : ManifestPayload :=
  { file_name := "Microsoft.VC.14.29.16.10.CRT.x64.Desktop.base.vsix"
    sha256 := "bb22", url := "https://dl/crt-x64-desktop", size := 200 }

/-- Demo CRT x64 Desktop libs item. -/
def demoCrtDesktop : ManifestItem :=
  { id := "Microsoft.VC.14.29.16.10.CRT.x64.Desktop.base"
    dependencies := []
    payloads := [demoDp]
    install_sizes := some { target_drive := some 900 } }

/-- Demo CRT x64 Store libs payload descriptor. -/
def demoSp : ManifestPayload :=
  { file_name := "Microsoft.VC.14.29.16.10.CRT.x64.Store.base.vsix"
    sha256 := "cc33", url := "https://dl/crt-x64-store", size := 210 }

/-- Demo CRT x64 Store libs item. -/
def demoCrtStore : ManifestItem :=
  { id := "Microsoft.VC.14.29.16.10.CRT.x64.Store.base"
    dependencies := []
    payloads := [demoSp]
    install_sizes := some { target_drive := some 910 } }

/-- Demo SDK generic desktop-headers payload descriptor. -/
def demoQ1 : ManifestPayload :=
  { file_name := "Installers\\Windows SDK Desktop Headers x86-x86_en-us.msi"
    sha256 := "dd44", url := "https://dl/sdk-hdr-x86", size := 300 }

/-- Demo SDK store-apps headers payload descriptor. -/
def demoQ2 : ManifestPayload :=
  { file_name := "Installers\\Windows SDK for Windows Store Apps Headers-x86_en-us.msi"
    sha256 := "ee55", url := "https://dl/sdk-store-hdr", size := 310 }

/-- Demo SDK x64 desktop-headers payload descriptor. -/
def demoQ3 : ManifestPayload :=
  { file_name := "Installers\\Windows SDK Desktop Headers x64-x86_en-us.msi"
    sha256 := "ff66", url := "https://dl/sdk-hdr-x64", size := 320 }

/-- Demo SDK x64 desktop-libs payload descriptor. -/
def demoQ4 : ManifestPayload :=
  { file_name := "Installers\\Windows SDK Desktop Libs x64-x86_en-us.msi"
    sha256 := "0077", url := "https://dl/sdk-libs-x64", size := 330 }

/-- Demo SDK store-apps libs payload descriptor. -/
def demoQ5 : ManifestPayload :=
  { file_name := "Installers\\Windows SDK for Windows Store Apps Libs-x86_en-us.msi"
    sha256 := "1188", url := "https://dl/sdk-store-libs", size := 340 }

/-- Demo Windows SDK item. -/
def demoSdk : ManifestItem :=
  { id := "Win10SDK_10.0.19041"
    dependencies := []
    payloads := [demoQ1, demoQ2, demoQ3, demoQ4, demoQ5]
    install_sizes := none }

/-- Demo Universal CRT payload descriptor. -/
def demoU1 : ManifestPayload :=
  { file_name := "Universal CRT Headers Libraries and Sources-x86_en-us.msi"
    sha256 := "2299", url := "https://dl/ucrt", size := 400 }

/-- Demo Universal CRT item. -/
def demoUcrt : ManifestItem :=
  { id := "Microsoft.Windows.UniversalCRT.HeadersLibsSources.Msi"
    dependencies := []
    payloads := [demoU1]
    install_sizes := some { target_drive := some 1300 } }

/-- The demo package manifest, keyed and ordered by id. -/
def demoPkgs : PkgMap :=
  [("Microsoft.VC.14.29.16.10.CRT.Headers.base", demoCrtHeaders),
   ("Microsoft.VC.14.29.16.10.CRT.x64.Desktop.base", demoCrtDesktop),
   ("Microsoft.VC.14.29.16.10.CRT.x64.Store.base", demoCrtStore),
   ("Microsoft.VisualStudio.Product.BuildTools", demoBt),
   ("Microsoft.Windows.UniversalCRT.HeadersLibsSources.Msi", demoUcrt),
   ("Win10SDK_10.0.19041", demoSdk)]

/-- The payload list resolved from the demo manifest (for witnesses). -/
def demoResolved : List Payload :=
  match prune_pkg_list demoPkgs 2 1 with
  | Except.ok l => l
  | Except.error _ => []


/-! ## Lemmas about error plumbing -/

theorem orCtx_ok_iff {o : Option α} {msg : String} {a : α} :
    orCtx o msg = Except.ok a ↔ o = some a := by
  cases o <;> simp [orCtx]

theorem orCtx_error_iff {o : Option α} {msg e : String} :
    orCtx o msg = Except.error e ↔ o = none ∧ e = msg := by
  cases o <;> simp [orCtx, eq_comm]

theorem exceptBind_ok_iff {α β : Type} {x : Except String α} {f : α → Except String β}
    {b : β} :
    (x >>= f) = Except.ok b ↔ ∃ a, x = Except.ok a ∧ f a = Except.ok b := by
  cases x <;> simp [Bind.bind, Except.bind]

theorem exceptPure_eq {α : Type} (a : α) : (pure a : Except String α) = Except.ok a := rfl

theorem exMapM_ok_iff {α β : Type} {f : α → Except String β} {l : List α} {r : List β} :
    exMapM f l = Except.ok r ↔ List.Forall₂ (fun a b => f a = Except.ok b) l r := by
  induction l generalizing r with
  | nil =>
    cases r <;> simp [exMapM]
  | cons a l ih =>
    cases hfa : f a with
    | error e => simp [exMapM, hfa, List.forall₂_cons_left_iff]
    | ok b =>
      cases hrec : exMapM f l with
      | error e =>
        simp only [exMapM, hfa, hrec, List.forall₂_cons_left_iff]
        constructor
        · intro h; cases h
        · rintro ⟨b', r', hb', hr', rfl⟩
          rw [ih.mpr hr'] at hrec
          cases hrec
      | ok bs =>
        simp only [exMapM, hfa, hrec, List.forall₂_cons_left_iff]
        constructor
        · rintro h
          cases h
          exact ⟨b, bs, rfl, ih.mp hrec, rfl⟩
        · rintro ⟨b', r', hb', hr', rfl⟩
          cases hb'
          rw [ih.mpr hr'] at hrec
          cases hrec
          rfl

/-! ## Lemmas about the string helpers -/

theorem subOf_iff {p l : List Char} : subOf p l = true ↔ p <:+: l := by
  induction l with
  | nil =>
    simp only [subOf, List.isEmpty_iff]
    constructor
    · rintro rfl; exact List.nil_infix
    · intro h; exact List.infix_nil.mp h
  | cons c rest ih =>
    simp [subOf, List.infix_cons_iff, ih, List.isPrefixOf_iff_prefix]

theorem strContains_iff {s pat : String} : strContains s pat = true ↔ pat.data <:+: s.data :=
  subOf_iff

theorem str_data_append (a b : String) : (a ++ b).data = a.data ++ b.data := by
  cases a; cases b; rfl

theorem str_ext {a b : String} (h : a.data = b.data) : a = b := by
  cases a; cases b; simp only at h; rw [h]

theorem prefix_drop_mid {p : List Char} {c : Char} (hc : c ∉ p) :
    ∀ {xs ys : List Char}, p <+: xs ++ c :: ys → p <+: xs := by
  intro xs
  induction xs generalizing p with
  | nil =>
    intro ys h
    cases p with
    | nil => exact List.nil_prefix
    | cons d q =>
      rw [List.nil_append, List.cons_prefix_cons] at h
      exact absurd (h.1 ▸ List.mem_cons_self d q) hc
  | cons x xs ih =>
    intro ys h
    cases p with
    | nil => exact List.nil_prefix
    | cons d q =>
      rw [List.cons_append, List.cons_prefix_cons] at h
      obtain ⟨rfl, h2⟩ := h
      have hq : c ∉ q := fun hm => hc (List.mem_cons_of_mem _ hm)
      exact List.cons_prefix_cons.mpr ⟨rfl, ih hq h2⟩

theorem infix_split_mid {c : Char} {p : List Char} (hc : c ∉ p) :
    ∀ (xs ys : List Char), (p <:+: xs ++ c :: ys ↔ p <:+: xs ∨ p <:+: ys)
  | [], ys => by
    rw [List.nil_append, List.infix_cons_iff]
    constructor
    · rintro (hpre | hinf)
      · cases p with
        | nil => exact Or.inl List.nil_infix
        | cons d q =>
          rw [List.cons_prefix_cons] at hpre
          exact absurd (hpre.1 ▸ List.mem_cons_self d q) hc
      · exact Or.inr hinf
    · rintro (h | h)
      · obtain rfl := List.infix_nil.mp h
        exact Or.inl List.nil_prefix
      · exact Or.inr h
  | x :: xs, ys => by
    rw [List.cons_append, List.infix_cons_iff, infix_split_mid hc xs ys,
      List.infix_cons_iff]
    constructor
    · rintro (hpre | h | h)
      · refine Or.inl (Or.inl ?_)
        cases p with
        | nil => exact List.nil_prefix
        | cons d q =>
          rw [List.cons_prefix_cons] at hpre ⊢
          refine ⟨hpre.1, prefix_drop_mid (fun hm => hc (List.mem_cons_of_mem _ hm)) hpre.2⟩
      · exact Or.inl (Or.inr h)
      · exact Or.inr h
    · rintro ((hpre | h) | h)
      · refine Or.inl (hpre.trans ?_)
        rw [← List.cons_append]
        exact List.prefix_append (x :: xs) (c :: ys)
      · exact Or.inr (Or.inl h)
      · exact Or.inr (Or.inr h)

theorem strContains_of_right {a b pat : String} (h : strContains b pat = true) :
    strContains (a ++ b) pat = true := by
  rw [strContains_iff, str_data_append]
  exact (strContains_iff.mp h).trans (List.suffix_append a.data b.data).isInfix

theorem subOf_between {p : List Char} (hc : ('.' : Char) ∉ p)
    {A B v : List Char}
    (hA : subOf p A = false) (hB : subOf p B = false) :
    subOf p (A ++ '.' :: (v ++ '.' :: B)) = subOf p v := by
  cases hv : subOf p v with
  | true =>
    have hpv : p <:+: v := subOf_iff.mp hv
    have hvw : v <:+: A ++ '.' :: (v ++ '.' :: B) := by
      have h := List.infix_append (A ++ ['.']) v ('.' :: B)
      have heq : (A ++ ['.']) ++ v ++ ('.' :: B) = A ++ '.' :: (v ++ '.' :: B) := by
        simp [List.append_assoc]
      rwa [heq] at h
    exact subOf_iff.mpr (hpv.trans hvw)
  | false =>
    cases hbig : subOf p (A ++ '.' :: (v ++ '.' :: B)) with
    | false => rfl
    | true =>
      exfalso
      have h := subOf_iff.mp hbig
      rcases (infix_split_mid hc A (v ++ '.' :: B)).mp h with h1 | h2
      · exact absurd (subOf_iff.mpr h1) (by simp [hA])
      · rcases (infix_split_mid hc v B).mp h2 with h3 | h4
        · exact absurd (subOf_iff.mpr h3) (by simp [hv])
        · exact absurd (subOf_iff.mpr h4) (by simp [hB])

theorem mkCrtLibId_data (ver : String) (arch : Arch) (vs : String) (sp : Bool) :
    (mkCrtLibId ver arch vs sp).data =
      "Microsoft.VC".data ++ '.' :: (ver.data ++ '.' ::
        ("CRT." ++ (if arch = Arch.Aarch64 then "ARM64" else arch.as_ms_str) ++ "." ++ vs ++
          (if sp && decide (vs ≠ "Store") then ".spectre" else "") ++ ".base").data) := by
  have e1 : ("Microsoft.VC.".data : List Char) = "Microsoft.VC".data ++ ['.'] := rfl
  have e2 : (".CRT.".data : List Char) = '.' :: "CRT.".data := rfl
  simp only [mkCrtLibId, str_data_append, e1, e2, List.append_assoc, List.cons_append,
    List.singleton_append, List.nil_append]

theorem mkCrtLibId_contains_headers (ver : String) (arch : Arch) (vs : String)
    (hvs : vs = "Desktop" ∨ vs = "OneCore.Desktop" ∨ vs = "Store") (sp : Bool) :
    strContains (mkCrtLibId ver arch vs sp) "Headers" = strContains ver "Headers" := by
  have hc : ('.' : Char) ∉ "Headers".data := by decide
  show subOf "Headers".data (mkCrtLibId ver arch vs sp).data =
    subOf "Headers".data ver.data
  rw [mkCrtLibId_data]
  apply subOf_between hc
  · decide
  · rcases hvs with rfl | rfl | rfl <;> cases arch <;> cases sp <;> decide

theorem headersKey_contains (ver : String) :
    strContains ("Microsoft.VC." ++ ver ++ ".CRT.Headers.base") "Headers" = true :=
  strContains_of_right (by decide)

/-! ## Lemmas about the manifest model and the enumerations -/

theorem mapGet_mem {pkgs : PkgMap} {k : String} {mi : ManifestItem}
    (h : mapGet pkgs k = some mi) : (k, mi) ∈ pkgs := by
  induction pkgs with
  | nil => cases h
  | cons e rest ih =>
    obtain ⟨k', mi'⟩ := e
    simp only [mapGet] at h
    split at h
    · next heq =>
      rw [Option.some.injEq] at h
      subst heq; subst h
      exact List.mem_cons_self _ _
    · next hne => exact List.mem_cons_of_mem _ (ih h)

theorem mem_archIter {a : Arch} {m : Nat} : a ∈ Arch.iter m ↔ a.val &&& m ≠ 0 := by
  cases a <;> simp [Arch.iter]

theorem archIter_nodup (m : Nat) : (Arch.iter m).Nodup :=
  List.Nodup.filter _ (by decide)

theorem mem_variantIter {vs : String} {m : Nat} (h : vs ∈ Variant.iter m) :
    vs = "Desktop" ∨ vs = "OneCore.Desktop" ∨ vs = "Store" := by
  rw [Variant.iter, List.mem_filterMap] at h
  obtain ⟨p, hp, hf⟩ := h
  split at hf
  · rw [Option.some.injEq] at hf
    subst hf
    fin_cases hp <;> simp
  · cases hf

theorem mem_crtCombos {av : Arch × String} {arches variants : Nat} :
    av ∈ crtCombos arches variants ↔
      av.1 ∈ Arch.iter arches ∧ av.2 ∈ Variant.iter variants := by
  obtain ⟨a, vs⟩ := av
  simp [crtCombos, List.mem_flatMap]

/-! ## Lemmas about stripping and the CRT version scan -/

theorem dropPre_eq {s pat r : String} (h : dropPre s pat = some r) :
    s.data = pat.data ++ r.data := by
  unfold dropPre at h
  split at h
  · next hp =>
    rw [Option.some.injEq] at h
    subst h
    obtain ⟨t, ht⟩ := List.isPrefixOf_iff_prefix.mp hp
    rw [← ht]
    simp
  · cases h

theorem dropSuf_eq {s pat r : String} (h : dropSuf s pat = some r) :
    s.data = r.data ++ pat.data := by
  unfold dropSuf at h
  split at h
  · next hp =>
    rw [Option.some.injEq] at h
    subst h
    obtain ⟨t, ht⟩ := List.isSuffixOf_iff_suffix.mp hp
    rw [← ht]
    simp
  · cases h

theorem vcStrip_eq {k v : String} (h : vcStrip k = some v) :
    k = "Microsoft.VisualStudio.Component.VC." ++ v ++ ".x86.x64" := by
  unfold vcStrip at h
  cases hd : dropPre k "Microsoft.VisualStudio.Component.VC." with
  | none => rw [hd] at h; cases h
  | some s0 =>
    rw [hd] at h
    simp only [Option.bind] at h
    have h1 := dropPre_eq hd
    have h2 := dropSuf_eq h
    apply str_ext
    rw [str_data_append, str_data_append, h1, h2, List.append_assoc]

theorem getLast?_filterMap_max {l : List String} {f : String → Option String} {v : String}
    (hs : l.Pairwise (· < ·)) (h : (l.filterMap f).getLast? = some v) :
    ∃ k ∈ l, f k = some v ∧ ∀ k' ∈ l, (f k').isSome = true → k' ≤ k := by
  induction l with
  | nil => simp [List.filterMap_nil] at h
  | cons k0 rest ih =>
    rw [List.pairwise_cons] at hs
    obtain ⟨hk0, hrest⟩ := hs
    rw [List.filterMap_cons] at h
    cases hf0 : f k0 with
    | none =>
      rw [hf0] at h
      obtain ⟨k, hkmem, hfk, hmax⟩ := ih hrest h
      refine ⟨k, List.mem_cons_of_mem _ hkmem, hfk, ?_⟩
      intro k' hk' hsome
      rcases List.mem_cons.mp hk' with rfl | hk'
      · rw [hf0] at hsome; cases hsome
      · exact hmax k' hk' hsome
    | some v0 =>
      rw [hf0] at h
      cases hrec : rest.filterMap f with
      | nil =>
        rw [hrec] at h
        simp only [List.getLast?_singleton, Option.some.injEq] at h
        subst h
        refine ⟨k0, List.mem_cons_self _ _, hf0, ?_⟩
        intro k' hk' hsome
        rcases List.mem_cons.mp hk' with rfl | hk'
        · exact le_refl _
        · exfalso
          have hnone : f k' = none := by
            have := (List.filterMap_eq_nil_iff).mp hrec
            exact this k' hk'
          rw [hnone] at hsome
          cases hsome
      | cons w ws =>
        rw [hrec] at h
        rw [List.getLast?_cons_cons] at h
        have h' : (rest.filterMap f).getLast? = some v := by rw [hrec]; exact h
        obtain ⟨k, hkmem, hfk, hmax⟩ := ih hrest h'
        refine ⟨k, List.mem_cons_of_mem _ hkmem, hfk, ?_⟩
        intro k' hk' hsome
        rcases List.mem_cons.mp hk' with rfl | hk'
        · exact le_of_lt (hk0 k hkmem)
        · exact hmax k' hk' hsome

/-! ## Success characterizations of the resolver stages -/

theorem get_crt_ok_iff {pkgs : PkgMap} {arches variants : Nat} {l : List Payload} :
    get_crt pkgs arches variants = Except.ok l ↔
      ∃ bt ver hdrs hp opts,
        mapGet pkgs "Microsoft.VisualStudio.Product.BuildTools" = some bt ∧
        crtVersionOf bt = some ver ∧
        mapGet pkgs ("Microsoft.VC." ++ ver ++ ".CRT.Headers.base") = some hdrs ∧
        hdrs.payloads.head? = some hp ∧
        exMapM (fun av => crtLibOne pkgs (mkCrtLibId ver av.1 av.2
            (decide (variants &&& Variant.val Variant.Spectre ≠ 0))))
          (crtCombos arches (variants ||| Variant.val Variant.Store)) = Except.ok opts ∧
        l = to_payload hdrs hp :: opts.filterMap (fun o => o) := by
  unfold get_crt
  simp only [exceptBind_ok_iff, orCtx_ok_iff, exceptPure_eq, Except.ok.injEq]
  constructor
  · rintro ⟨bt, hbt, ver, hver, hdrs, hhdr, hp, hhp, opts, hopts, rfl⟩
    exact ⟨bt, ver, hdrs, hp, opts, hbt, hver, hhdr, hhp, hopts, rfl⟩
  · rintro ⟨bt, ver, hdrs, hp, opts, hbt, hver, hhdr, hhp, hopts, rfl⟩
    exact ⟨bt, hbt, ver, hver, hdrs, hhdr, hp, hhp, opts, hopts, rfl⟩

theorem get_sdk_ok_iff {pkgs : PkgMap} {arches : Nat} {l : List Payload} :
    get_sdk pkgs arches = Except.ok l ↔
      ∃ sdk h1 h2 archHdrs archLibs sl ucrt msi,
        maxItem ((pkgs.map Prod.snd).filter
          (fun mi => strStarts mi.id "Win10SDK_10.")) = some sdk ∧
        sdk.payloads.find?
          (fun pl =>
            strEnds pl.file_name "Windows SDK Desktop Headers x86-x86_en-us.msi") =
          some h1 ∧
        sdk.payloads.find?
          (fun pl =>
            strEnds pl.file_name
              "Windows SDK for Windows Store Apps Headers-x86_en-us.msi") = some h2 ∧
        exMapM (sdkArchHeaderOne sdk)
          ((Arch.iter arches).filter (fun a => decide (a ≠ Arch.X86))) =
          Except.ok archHdrs ∧
        exMapM (sdkArchLibOne sdk) (Arch.iter arches) = Except.ok archLibs ∧
        sdk.payloads.find?
          (fun pl =>
            strEnds pl.file_name
              "Windows SDK for Windows Store Apps Libs-x86_en-us.msi") = some sl ∧
        mapGet pkgs "Microsoft.Windows.UniversalCRT.HeadersLibsSources.Msi" = some ucrt ∧
        ucrt.payloads.find?
          (fun pl =>
            decide (pl.file_name =
              "Universal CRT Headers Libraries and Sources-x86_en-us.msi")) = some msi ∧
        l = sdkGenericHeadersPayload sdk h1 :: sdkStoreHeadersPayload sdk h2 ::
          (archHdrs ++ archLibs ++ [sdkStoreLibsPayload sdk sl, ucrtPayload msi]) := by
  unfold get_sdk
  simp only [exceptBind_ok_iff, orCtx_ok_iff, exceptPure_eq, Except.ok.injEq]
  constructor
  · rintro ⟨sdk, hsdk, h1, hh1, h2, hh2, aH, haH, aL, haL, sl, hsl, uc, huc, msi, hmsi, rfl⟩
    exact ⟨sdk, h1, h2, aH, aL, sl, uc, msi, hsdk, hh1, hh2, haH, haL, hsl, huc, hmsi, rfl⟩
  · rintro ⟨sdk, h1, h2, aH, aL, sl, uc, msi, hsdk, hh1, hh2, haH, haL, hsl, huc, hmsi, rfl⟩
    exact ⟨sdk, hsdk, h1, hh1, h2, hh2, aH, haH, aL, haL, sl, hsl, uc, huc, msi, hmsi, rfl⟩

theorem prune_ok_iff {pkgs : PkgMap} {arches variants : Nat} {l : List Payload} :
    prune_pkg_list pkgs arches variants = Except.ok l ↔
      ∃ c s, get_crt pkgs arches variants = Except.ok c ∧
        get_sdk pkgs arches = Except.ok s ∧ l = c ++ s := by
  unfold prune_pkg_list
  simp only [exceptBind_ok_iff, exceptPure_eq, Except.ok.injEq]
  constructor
  · rintro ⟨c, hc, s, hs, rfl⟩
    exact ⟨c, s, hc, hs, rfl⟩
  · rintro ⟨c, s, hc, hs, rfl⟩
    exact ⟨c, hc, s, hs, rfl⟩

/-! ## Extra demo data for witnesses -/

/-- A concrete aarch64 CRT payload descriptor (uppercase ARM in the name). -/
def demoArmPayload : ManifestPayload :=
  { file_name := "Microsoft.VC.14.29.16.10.CRT.ARM64.Desktop.base.vsix"
    sha256 := "33aa", url := "https://dl/crt-arm64-desktop", size := 220 }

/-- A concrete aarch64 CRT libs item. -/
def demoArmItem : ManifestItem :=
  { id := "Microsoft.VC.14.29.16.10.CRT.ARM64.Desktop.base"
    dependencies := []
    payloads := [demoArmPayload]
    install_sizes := some { target_drive := some 920 } }

/-! ## Claim C8 -/

/-- C8: a CRT payload whose detected target architecture is aarch64 gets its
file name with every "ARM" replaced by "arm"; any other CRT payload keeps the
manifest file name unchanged. -/
theorem claim_c8 (mi : ManifestItem) (pl : ManifestPayload) :
    ((to_payload mi pl).target_arch = some Arch.Aarch64 →
      (to_payload mi pl).filename = strReplace pl.file_name "ARM" "arm") ∧
    ((to_payload mi pl).target_arch ≠ some Arch.Aarch64 →
      (to_payload mi pl).filename = pl.file_name) := by
  constructor
  · intro h
    simp only [to_payload] at h ⊢
    rw [if_pos h]
  · intro h
    simp only [to_payload] at h ⊢
    rw [if_neg h]

/-- Witness for C8 at a concrete aarch64 payload. -/
theorem claim_c8_witness :
    (to_payload demoArmItem demoArmPayload).target_arch = some Arch.Aarch64 ∧
    (to_payload demoArmItem demoArmPayload).filename =
      strReplace demoArmPayload.file_name "ARM" "arm" ∧
    (to_payload demoArmItem demoArmPayload).filename =
      "Microsoft.VC.14.29.16.10.CRT.arm64.Desktop.base.vsix" :=
  ⟨by decide, (claim_c8 demoArmItem demoArmPayload).1 (by decide), by decide⟩

/-! ## Claim C10 -/

/-- C10: the CRT variant matcher checks "OneCore" before "Desktop": a name
containing "OneCore.Desktop" is classified OneCore, never Desktop; a name
containing "Desktop" but not "OneCore" is classified Desktop. -/
theorem claim_c10 (name : String) :
    (strContains name "OneCore.Desktop" = true →
      detectVariant name = some Variant.OneCore) ∧
    (strContains name "Desktop" = true → strContains name "OneCore" = false →
      detectVariant name = some Variant.Desktop) := by
  constructor
  · intro h
    have honc : strContains name "OneCore" = true := by
      rw [strContains_iff] at h ⊢
      exact List.IsInfix.trans (subOf_iff.mp (by decide)) h
    simp [detectVariant, honc]
  · intro hd hoc
    simp [detectVariant, hoc, hd]

/-- Witness for C10 at concrete OneCore and Desktop file names. -/
theorem claim_c10_witness :
    detectVariant "Microsoft.VC.14.29.16.10.CRT.x64.OneCore.Desktop.base.vsix" =
      some Variant.OneCore ∧
    detectVariant "Microsoft.VC.14.29.16.10.CRT.x64.Desktop.base.vsix" =
      some Variant.Desktop :=
  ⟨(claim_c10 "Microsoft.VC.14.29.16.10.CRT.x64.OneCore.Desktop.base.vsix").1 (by decide),
   (claim_c10 "Microsoft.VC.14.29.16.10.CRT.x64.Desktop.base.vsix").2 (by decide) (by decide)⟩

/-! ## Claim C4 -/

/-- C4 counterexample: a payload file name containing both "arm" and "arm64"
(and also "x64") is classified as x86_64 by the CRT matcher, because "x64" is
checked before "arm64"; the claim as stated predicts Aarch64 for every such
name. -/
theorem claim_c4_counterexample :
    strContains "Microsoft.VC.14.29.16.10.CRT.arm64.x64.base.vsix" "arm" = true ∧
    strContains "Microsoft.VC.14.29.16.10.CRT.arm64.x64.base.vsix" "arm64" = true ∧
    detectArch "Microsoft.VC.14.29.16.10.CRT.arm64.x64.base.vsix" = some Arch.X86_64 ∧
    some Arch.X86_64 ≠ some Arch.Aarch64 := by decide

/-- C4 amended: for a file name containing "arm64" (hence "arm"), the CRT
matcher never answers 32-bit ARM, and answers Aarch64 whenever the name does
not also contain "x64"; the SDK prefix/suffix matcher classifies the example
name as Aarch64 and not as Aarch. -/
theorem claim_c4 (name : String) (h64 : strContains name "arm64" = true) :
    detectArch name ≠ some Arch.Aarch ∧
    (strContains name "x64" = false → detectArch name = some Arch.Aarch64) ∧
    sdkArchLibPred Arch.Aarch64
      { file_name := "Installers\\Windows SDK Desktop Libs arm64-x86_en-us.msi"
        sha256 := "", url := "", size := 0 } = true ∧
    sdkArchLibPred Arch.Aarch
      { file_name := "Installers\\Windows SDK Desktop Libs arm64-x86_en-us.msi"
        sha256 := "", url := "", size := 0 } = false := by
  refine ⟨?_, ?_, by decide, by decide⟩
  · cases hx : strContains name "x64" <;> simp [detectArch, hx, h64]
  · intro hx
    simp [detectArch, hx, h64]

/-- Witness for C4 at the example file name from the spec. -/
theorem claim_c4_witness :
    detectArch "Installers\\Windows SDK Desktop Libs arm64-x86_en-us.msi" =
      some Arch.Aarch64 :=
  (claim_c4 "Installers\\Windows SDK Desktop Libs arm64-x86_en-us.msi"
    (by decide)).2.1 (by decide)

/-! ## Claim C6 -/

/-- Spec-side formula for the CRT-libs lookup id, written from the words of
claim C6: `Microsoft.VC.<version>.CRT.<arch>.<variant><suffix>.base` with the
arch token uppercased ARM64 for aarch64 and `.spectre` exactly when the
spectre bit is set in the variant mask and the variant is not Store. -/
def crtLibIdSpec (version : String) (arch : Arch) (variantStr : String)
    (variants : Nat) : String :=
  "Microsoft.VC." ++ version ++ ".CRT." ++
    (if arch = Arch.Aarch64 then "ARM64" else arch.as_ms_str) ++ "." ++ variantStr ++
    (if variants &&& Variant.val Variant.Spectre ≠ 0 ∧ variantStr ≠ "Store" then ".spectre"
     else "") ++ ".base"

/-- C6: for every arch in the arch mask and variant in the Store-augmented
variant mask, the lookup id synthesized by the resolver equals the spec
formula. -/
theorem claim_c6 (version : String) (arches variants : Nat) (arch : Arch) (vs : String)
    (ha : arch ∈ Arch.iter arches)
    (hv : vs ∈ Variant.iter (variants ||| Variant.val Variant.Store)) :
    mkCrtLibId version arch vs (decide (variants &&& Variant.val Variant.Spectre ≠ 0)) =
      crtLibIdSpec version arch vs variants := by
  have hsuf :
      (if decide (variants &&& Variant.val Variant.Spectre ≠ 0) && decide (vs ≠ "Store")
        then ".spectre" else "") =
      (if variants &&& Variant.val Variant.Spectre ≠ 0 ∧ vs ≠ "Store" then ".spectre"
        else "") := by
    by_cases h1 : variants &&& Variant.val Variant.Spectre ≠ 0 <;>
      by_cases h2 : vs = "Store" <;> simp [h1, h2]
  rw [mkCrtLibId, crtLibIdSpec, hsuf]

/-- Witness for C6 at a concrete arch, variant and masks. -/
theorem claim_c6_witness :
    mkCrtLibId "14.29.16.10" Arch.Aarch64 "Desktop"
        (decide ((9 : Nat) &&& Variant.val Variant.Spectre ≠ 0)) =
      crtLibIdSpec "14.29.16.10" Arch.Aarch64 "Desktop" 9 ∧
    mkCrtLibId "14.29.16.10" Arch.Aarch64 "Desktop"
        (decide ((9 : Nat) &&& Variant.val Variant.Spectre ≠ 0)) =
      "Microsoft.VC.14.29.16.10.CRT.ARM64.Desktop.spectre.base" :=
  ⟨claim_c6 "14.29.16.10" 8 9 Arch.Aarch64 "Desktop" (by decide) (by decide), by decide⟩

/-! ## Claim C9 -/

/-- C9: the resolver is deterministic — equal manifests and equal masks give
equal payload lists. -/
theorem claim_c9 (p1 p2 : PkgMap) (a1 a2 v1 v2 : Nat)
    (hp : p1 = p2) (ha : a1 = a2) (hv : v1 = v2) :
    prune_pkg_list p1 a1 v1 = prune_pkg_list p2 a2 v2 := by
  subst hp; subst ha; subst hv; rfl

/-- Witness for C9 at the demo manifest. -/
theorem claim_c9_witness :
    prune_pkg_list demoPkgs 2 1 = prune_pkg_list demoPkgs 2 1 :=
  claim_c9 demoPkgs demoPkgs 2 2 1 1 rfl rfl rfl

/-! ## Claim C5 -/

/-- C5: the CRT version comes from stripping the fixed prefix/suffix off the
build-tools dependency keys and taking the last match; on a key-ordered
dependency map this is the lexicographically greatest matching key, in plain
string order. -/
theorem claim_c5 (bt : ManifestItem) (v : String)
    (hsorted : (bt.dependencies.map Prod.fst).Pairwise (· < ·))
    (hv : crtVersionOf bt = some v) :
    ("Microsoft.VisualStudio.Component.VC." ++ v ++ ".x86.x64") ∈
        bt.dependencies.map Prod.fst ∧
    vcStrip ("Microsoft.VisualStudio.Component.VC." ++ v ++ ".x86.x64") = some v ∧
    ∀ k ∈ bt.dependencies.map Prod.fst, (vcStrip k).isSome = true →
      k ≤ "Microsoft.VisualStudio.Component.VC." ++ v ++ ".x86.x64" := by
  unfold crtVersionOf at hv
  obtain ⟨k, hmem, hfk, hmax⟩ := getLast?_filterMap_max hsorted hv
  have hkeq := vcStrip_eq hfk
  subst hkeq
  exact ⟨hmem, hfk, hmax⟩

/-- Witness for C5 at the demo build-tools item. -/
theorem claim_c5_witness :
    ("Microsoft.VisualStudio.Component.VC." ++ "14.29.16.10" ++ ".x86.x64") ∈
        demoBt.dependencies.map Prod.fst ∧
    vcStrip ("Microsoft.VisualStudio.Component.VC." ++ "14.29.16.10" ++ ".x86.x64") =
      some "14.29.16.10" ∧
    ∀ k ∈ demoBt.dependencies.map Prod.fst, (vcStrip k).isSome = true →
      k ≤ "Microsoft.VisualStudio.Component.VC." ++ "14.29.16.10" ++ ".x86.x64" :=
  claim_c5 demoBt "14.29.16.10" (by simp [demoBt]) (by rfl)

/-! ## Claim C1 -/

/-- C1: for any manifest containing the root BuildTools item, a CRT version
dependency key, the CRT headers package, the x86_64 Desktop and Store
CRT-libs packages, and an SDK item with the expected header/lib payloads,
resolving with arch mask {x86_64} and variant mask {desktop} yields exactly
nine payloads whose kinds (with arch/variant) are the fixed golden list, in
order. -/
theorem claim_c1 (pkgs : PkgMap)
    (bt hdrItem dItem sItem sdkItem uItem : ManifestItem) (sel : String)
    (hp dp sp2 q1 q2 q3 q4 q5 u1 : ManifestPayload)
    (hbt : mapGet pkgs "Microsoft.VisualStudio.Product.BuildTools" = some bt)
    (hdep : bt.dependencies =
      [("Microsoft.VisualStudio.Component.VC.14.29.16.10.x86.x64", sel)])
    (hh : mapGet pkgs "Microsoft.VC.14.29.16.10.CRT.Headers.base" = some hdrItem)
    (hhid : hdrItem.id = "Microsoft.VC.14.29.16.10.CRT.Headers.base")
    (hhpl : hdrItem.payloads = [hp])
    (hhfn : hp.file_name = "Microsoft.VC.14.29.16.10.CRT.Headers.base.vsix")
    (hd : mapGet pkgs "Microsoft.VC.14.29.16.10.CRT.x64.Desktop.base" = some dItem)
    (hdid : dItem.id = "Microsoft.VC.14.29.16.10.CRT.x64.Desktop.base")
    (hdpl : dItem.payloads = [dp])
    (hdfn : dp.file_name = "Microsoft.VC.14.29.16.10.CRT.x64.Desktop.base.vsix")
    (hs : mapGet pkgs "Microsoft.VC.14.29.16.10.CRT.x64.Store.base" = some sItem)
    (hsid : sItem.id = "Microsoft.VC.14.29.16.10.CRT.x64.Store.base")
    (hspl : sItem.payloads = [sp2])
    (hsfn : sp2.file_name = "Microsoft.VC.14.29.16.10.CRT.x64.Store.base.vsix")
    (hsdk : (pkgs.map Prod.snd).filter (fun mi => strStarts mi.id "Win10SDK_10.") =
      [sdkItem])
    (hsdkpl : sdkItem.payloads = [q1, q2, q3, q4, q5])
    (hq1 : q1.file_name = "Installers\\Windows SDK Desktop Headers x86-x86_en-us.msi")
    (hq2 : q2.file_name =
      "Installers\\Windows SDK for Windows Store Apps Headers-x86_en-us.msi")
    (hq3 : q3.file_name = "Installers\\Windows SDK Desktop Headers x64-x86_en-us.msi")
    (hq4 : q4.file_name = "Installers\\Windows SDK Desktop Libs x64-x86_en-us.msi")
    (hq5 : q5.file_name =
      "Installers\\Windows SDK for Windows Store Apps Libs-x86_en-us.msi")
    (hu : mapGet pkgs "Microsoft.Windows.UniversalCRT.HeadersLibsSources.Msi" =
      some uItem)
    (hupl : uItem.payloads = [u1])
    (hufn : u1.file_name = "Universal CRT Headers Libraries and Sources-x86_en-us.msi") :
    ∃ l, prune_pkg_list pkgs 2 1 = Except.ok l ∧ l.length = 9 ∧
      l.map (fun p => (p.kind, p.target_arch, p.variant)) =
        [(PayloadKind.CrtHeaders, none, none),
         (PayloadKind.CrtLibs, some Arch.X86_64, some Variant.Desktop),
         (PayloadKind.CrtLibs, some Arch.X86_64, some Variant.Store),
         (PayloadKind.SdkHeaders, none, none),
         (PayloadKind.SdkHeaders, none, none),
         (PayloadKind.SdkHeaders, some Arch.X86_64, none),
         (PayloadKind.SdkLibs, some Arch.X86_64, none),
         (PayloadKind.SdkStoreLibs, none, none),
         (PayloadKind.Ucrt, none, none)] := by
  -- CRT stage
  have hver : crtVersionOf bt = some "14.29.16.10" := by
    unfold crtVersionOf; rw [hdep]; rfl
  have hhead : hdrItem.payloads.head? = some hp := by rw [hhpl]; rfl
  have hone1 :
      crtLibOne pkgs (mkCrtLibId "14.29.16.10" Arch.X86_64 "Desktop"
        (decide ((1 : Nat) &&& Variant.val Variant.Spectre ≠ 0))) =
      Except.ok (some (to_payload dItem dp)) := by
    have hid : mkCrtLibId "14.29.16.10" Arch.X86_64 "Desktop"
        (decide ((1 : Nat) &&& Variant.val Variant.Spectre ≠ 0)) =
        "Microsoft.VC.14.29.16.10.CRT.x64.Desktop.base" := rfl
    rw [hid]
    simp [crtLibOne, hd, hdpl]
  have hone2 :
      crtLibOne pkgs (mkCrtLibId "14.29.16.10" Arch.X86_64 "Store"
        (decide ((1 : Nat) &&& Variant.val Variant.Spectre ≠ 0))) =
      Except.ok (some (to_payload sItem sp2)) := by
    have hid : mkCrtLibId "14.29.16.10" Arch.X86_64 "Store"
        (decide ((1 : Nat) &&& Variant.val Variant.Spectre ≠ 0)) =
        "Microsoft.VC.14.29.16.10.CRT.x64.Store.base" := rfl
    rw [hid]
    simp [crtLibOne, hs, hspl]
  have hcombos : crtCombos 2 ((1 : Nat) ||| Variant.val Variant.Store) =
      [(Arch.X86_64, "Desktop"), (Arch.X86_64, "Store")] := rfl
  have hcrt : get_crt pkgs 2 1 =
      Except.ok [to_payload hdrItem hp, to_payload dItem dp, to_payload sItem sp2] := by
    rw [get_crt_ok_iff]
    refine ⟨bt, "14.29.16.10", hdrItem, hp,
      [some (to_payload dItem dp), some (to_payload sItem sp2)],
      hbt, hver, hh, hhead, ?_, rfl⟩
    rw [hcombos]
    simp only [exMapM]
    rw [hone1, hone2]
  -- SDK stage
  have hmax : maxItem ((pkgs.map Prod.snd).filter
      (fun mi => strStarts mi.id "Win10SDK_10.")) = some sdkItem := by
    rw [hsdk]; rfl
  have hfind1 : sdkItem.payloads.find?
      (fun pl => strEnds pl.file_name "Windows SDK Desktop Headers x86-x86_en-us.msi") =
      some q1 := by
    rw [hsdkpl]
    simp only [List.find?, hq1]
    rfl
  have hfind2 : sdkItem.payloads.find?
      (fun pl =>
        strEnds pl.file_name "Windows SDK for Windows Store Apps Headers-x86_en-us.msi") =
      some q2 := by
    rw [hsdkpl]
    simp only [List.find?, hq1, hq2]
    rfl
  have hfind3 : sdkItem.payloads.find? (sdkArchHdrPred Arch.X86_64) = some q3 := by
    rw [hsdkpl]
    simp only [List.find?, sdkArchHdrPred, hq1, hq2, hq3]
    rfl
  have hfind4 : sdkItem.payloads.find? (sdkArchLibPred Arch.X86_64) = some q4 := by
    rw [hsdkpl]
    simp only [List.find?, sdkArchLibPred, hq1, hq2, hq3, hq4]
    rfl
  have hfind5 : sdkItem.payloads.find?
      (fun pl =>
        strEnds pl.file_name "Windows SDK for Windows Store Apps Libs-x86_en-us.msi") =
      some q5 := by
    rw [hsdkpl]
    simp only [List.find?, hq1, hq2, hq3, hq4, hq5]
    rfl
  have hfindu : uItem.payloads.find?
      (fun pl =>
        decide (pl.file_name =
          "Universal CRT Headers Libraries and Sources-x86_en-us.msi")) = some u1 := by
    rw [hupl]
    simp only [List.find?, hufn]
    rfl
  have harchs : (Arch.iter 2).filter (fun a => decide (a ≠ Arch.X86)) =
      [Arch.X86_64] := rfl
  have harchs2 : Arch.iter 2 = [Arch.X86_64] := rfl
  have hah : exMapM (sdkArchHeaderOne sdkItem) [Arch.X86_64] =
      Except.ok [sdkArchHeadersPayload sdkItem Arch.X86_64 q3] := by
    simp only [exMapM, sdkArchHeaderOne, hfind3]
  have hal : exMapM (sdkArchLibOne sdkItem) [Arch.X86_64] =
      Except.ok [sdkLibsPayload sdkItem Arch.X86_64 q4] := by
    simp only [exMapM, sdkArchLibOne, hfind4]
  have hsdkok : get_sdk pkgs 2 =
      Except.ok [sdkGenericHeadersPayload sdkItem q1, sdkStoreHeadersPayload sdkItem q2,
        sdkArchHeadersPayload sdkItem Arch.X86_64 q3, sdkLibsPayload sdkItem Arch.X86_64 q4,
        sdkStoreLibsPayload sdkItem q5, ucrtPayload u1] := by
    rw [get_sdk_ok_iff]
    refine ⟨sdkItem, q1, q2, [sdkArchHeadersPayload sdkItem Arch.X86_64 q3],
      [sdkLibsPayload sdkItem Arch.X86_64 q4], q5, uItem, u1,
      hmax, hfind1, hfind2, ?_, ?_, hfind5, hu, hfindu, rfl⟩
    · rw [harchs]; exact hah
    · rw [harchs2]; exact hal
  -- assemble
  refine ⟨_, prune_ok_iff.mpr ⟨_, _, hcrt, hsdkok, rfl⟩, by simp, ?_⟩
  simp only [List.map_append, List.map_cons, List.map_nil, List.append_assoc,
    List.cons_append, List.nil_append]
  simp +decide [to_payload, hhid, hhfn, hdid, hdfn, hsid, hsfn,
    sdkGenericHeadersPayload, sdkStoreHeadersPayload, sdkArchHeadersPayload,
    sdkLibsPayload, sdkStoreLibsPayload, ucrtPayload,
    detectArch, detectVariant, strContains, subOf]

/-- Witness for C1 at the demo manifest. -/
theorem claim_c1_witness :
    ∃ l, prune_pkg_list demoPkgs 2 1 = Except.ok l ∧ l.length = 9 ∧
      l.map (fun p => (p.kind, p.target_arch, p.variant)) =
        [(PayloadKind.CrtHeaders, none, none),
         (PayloadKind.CrtLibs, some Arch.X86_64, some Variant.Desktop),
         (PayloadKind.CrtLibs, some Arch.X86_64, some Variant.Store),
         (PayloadKind.SdkHeaders, none, none),
         (PayloadKind.SdkHeaders, none, none),
         (PayloadKind.SdkHeaders, some Arch.X86_64, none),
         (PayloadKind.SdkLibs, some Arch.X86_64, none),
         (PayloadKind.SdkStoreLibs, none, none),
         (PayloadKind.Ucrt, none, none)] :=
  claim_c1 demoPkgs demoBt demoCrtHeaders demoCrtDesktop demoCrtStore demoSdk demoUcrt
    "required" demoHp demoDp demoSp demoQ1 demoQ2 demoQ3 demoQ4 demoQ5 demoU1
    (by rfl) (by rfl) (by rfl) (by rfl) (by rfl) (by rfl) (by rfl) (by rfl) (by rfl)
    (by rfl) (by rfl) (by rfl) (by rfl) (by rfl) (by rfl) (by rfl) (by rfl) (by rfl)
    (by rfl) (by rfl) (by rfl) (by rfl) (by rfl) (by rfl)

/-! ## Claim C7 -/

theorem crtLibOne_total {pkgs : PkgMap} (hne : ∀ e ∈ pkgs, e.2.payloads ≠ [])
    (id : String) :
    ∃ o, crtLibOne pkgs id = Except.ok o ∧ o.isSome = (mapGet pkgs id).isSome := by
  cases hm : mapGet pkgs id with
  | none => exact ⟨none, by simp [crtLibOne, hm], rfl⟩
  | some item =>
    have hni : item.payloads ≠ [] := hne (id, item) (mapGet_mem hm)
    cases hpl : item.payloads with
    | nil => exact absurd hpl hni
    | cons p0 rest =>
      exact ⟨some (to_payload item p0), by simp [crtLibOne, hm, hpl], rfl⟩

theorem exMapM_crtLibs_total {pkgs : PkgMap} (hne : ∀ e ∈ pkgs, e.2.payloads ≠ [])
    (ver : String) (sp : Bool) (combos : List (Arch × String)) :
    ∃ opts,
      exMapM (fun av => crtLibOne pkgs (mkCrtLibId ver av.1 av.2 sp)) combos =
        Except.ok opts ∧
      (opts.filterMap (fun o => o)).length =
        (combos.filter
          (fun av => (mapGet pkgs (mkCrtLibId ver av.1 av.2 sp)).isSome)).length := by
  induction combos with
  | nil => exact ⟨[], rfl, rfl⟩
  | cons av rest ih =>
    obtain ⟨opts, hopts, hlen⟩ := ih
    obtain ⟨o, ho, hsome⟩ := crtLibOne_total hne (mkCrtLibId ver av.1 av.2 sp)
    refine ⟨o :: opts, ?_, ?_⟩
    · simp only [exMapM, ho, hopts]
    · cases o with
      | none =>
        have h1 : List.filterMap (fun o => o) (none :: opts) =
            List.filterMap (fun o => o) opts := rfl
        rw [h1, List.filter_cons, ← hsome]
        simpa using hlen
      | some p =>
        have h1 : List.filterMap (fun o => o) (some p :: opts) =
            p :: List.filterMap (fun o => o) opts := rfl
        rw [h1, List.filter_cons, ← hsome]
        simpa using hlen

/-- C7: resolution fails when the root BuildTools item is missing, when no
dependency key yields a CRT version, or when no package id carries the SDK
prefix; but a missing synthesized CRT-libs id is only skipped: the CRT stage
still succeeds, emitting the headers payload plus one payload per arch ×
variant combination actually present in the package map. -/
theorem claim_c7 (pkgs : PkgMap) (arches variants : Nat) :
    (mapGet pkgs "Microsoft.VisualStudio.Product.BuildTools" = none →
      ∃ e, prune_pkg_list pkgs arches variants = Except.error e) ∧
    (∀ bt, mapGet pkgs "Microsoft.VisualStudio.Product.BuildTools" = some bt →
      crtVersionOf bt = none →
      ∃ e, prune_pkg_list pkgs arches variants = Except.error e) ∧
    ((pkgs.map Prod.snd).filter (fun mi => strStarts mi.id "Win10SDK_10.") = [] →
      ∃ e, prune_pkg_list pkgs arches variants = Except.error e) ∧
    (∀ bt ver hdrs hpay,
      mapGet pkgs "Microsoft.VisualStudio.Product.BuildTools" = some bt →
      crtVersionOf bt = some ver →
      mapGet pkgs ("Microsoft.VC." ++ ver ++ ".CRT.Headers.base") = some hdrs →
      hdrs.payloads.head? = some hpay →
      (∀ e ∈ pkgs, e.2.payloads ≠ []) →
      ∃ l, get_crt pkgs arches variants = Except.ok l ∧
        l.length = 1 +
          ((crtCombos arches (variants ||| Variant.val Variant.Store)).filter
            (fun av => (mapGet pkgs (mkCrtLibId ver av.1 av.2
              (decide (variants &&& Variant.val Variant.Spectre ≠ 0)))).isSome)).length) := by
  refine ⟨?_, ?_, ?_, ?_⟩
  · intro h
    cases hres : prune_pkg_list pkgs arches variants with
    | error e => exact ⟨e, rfl⟩
    | ok l =>
      exfalso
      obtain ⟨c, s, hc, _, _⟩ := prune_ok_iff.mp hres
      obtain ⟨bt, _, _, _, _, hbt, _⟩ := get_crt_ok_iff.mp hc
      rw [h] at hbt
      cases hbt
  · intro bt hbt hver
    cases hres : prune_pkg_list pkgs arches variants with
    | error e => exact ⟨e, rfl⟩
    | ok l =>
      exfalso
      obtain ⟨c, s, hc, _, _⟩ := prune_ok_iff.mp hres
      obtain ⟨bt', ver', _, _, _, hbt', hver', _⟩ := get_crt_ok_iff.mp hc
      rw [hbt] at hbt'
      rw [Option.some.injEq] at hbt'
      subst hbt'
      rw [hver] at hver'
      cases hver'
  · intro h
    cases hres : prune_pkg_list pkgs arches variants with
    | error e => exact ⟨e, rfl⟩
    | ok l =>
      exfalso
      obtain ⟨c, s, _, hs, _⟩ := prune_ok_iff.mp hres
      obtain ⟨sdk, _, _, _, _, _, _, _, hmax, _⟩ := get_sdk_ok_iff.mp hs
      rw [h] at hmax
      cases hmax
  · intro bt ver hdrs hpay hbt hver hh hhead hne
    obtain ⟨opts, hopts, hlen⟩ := exMapM_crtLibs_total hne ver
      (decide (variants &&& Variant.val Variant.Spectre ≠ 0))
      (crtCombos arches (variants ||| Variant.val Variant.Store))
    refine ⟨to_payload hdrs hpay :: opts.filterMap (fun o => o),
      get_crt_ok_iff.mpr ⟨bt, ver, hdrs, hpay, opts, hbt, hver, hh, hhead, hopts, rfl⟩, ?_⟩
    simp [hlen, Nat.add_comm]

/-! ## Claim C2 -/

/-- Well-formedness of a package manifest: every entry's item carries the id
it is keyed under (the manifest is a package-id-keyed map). -/
def PkgsWF (pkgs : PkgMap) : Prop := ∀ e ∈ pkgs, e.2.id = e.1

/-- The stage index of a payload kind in the resolver's emission order. -/
def kindIdx : PayloadKind → Nat
  | .CrtHeaders => 0
  | .CrtLibs => 1
  | .SdkHeaders => 2
  | .SdkLibs => 3
  | .SdkStoreLibs => 4
  | .Ucrt => 5

theorem forall₂_mem_right {α β : Type} {R : α → β → Prop} {l : List α} {r : List β}
    (h : List.Forall₂ R l r) {b : β} (hb : b ∈ r) : ∃ a ∈ l, R a b := by
  induction h with
  | nil => cases hb
  | cons hR hFa ih =>
    rcases List.mem_cons.mp hb with rfl | hb
    · exact ⟨_, List.mem_cons_self _ _, hR⟩
    · obtain ⟨a, ha, hr⟩ := ih hb
      exact ⟨a, List.mem_cons_of_mem _ ha, hr⟩

theorem crtLibOne_ok_inv {pkgs : PkgMap} {id : String} {o : Option Payload}
    (h : crtLibOne pkgs id = Except.ok o) :
    o = none ∨ ∃ item pl, mapGet pkgs id = some item ∧ item.payloads.head? = some pl ∧
      o = some (to_payload item pl) := by
  unfold crtLibOne at h
  split at h
  · next item hm =>
    split at h
    · next pl hpl =>
      rw [Except.ok.injEq] at h
      exact Or.inr ⟨item, pl, hm, hpl, h.symm⟩
    · cases h
  · next hm =>
    rw [Except.ok.injEq] at h
    exact Or.inl h.symm

theorem get_crt_kinds {pkgs : PkgMap} {arches variants : Nat} {l : List Payload}
    (hwf : PkgsWF pkgs) (h : get_crt pkgs arches variants = Except.ok l) :
    ∃ k, (k = PayloadKind.CrtHeaders ∨ k = PayloadKind.CrtLibs) ∧
      l.map Payload.kind =
        PayloadKind.CrtHeaders :: List.replicate (l.length - 1) k := by
  obtain ⟨bt, ver, hdrs, hpay, opts, hbt, hver, hh, hhead, hopts, rfl⟩ :=
    get_crt_ok_iff.mp h
  refine ⟨if strContains ver "Headers" = true then PayloadKind.CrtHeaders
    else PayloadKind.CrtLibs,
    by split <;> first | exact Or.inl rfl | exact Or.inr rfl, ?_⟩
  have hid : hdrs.id = "Microsoft.VC." ++ ver ++ ".CRT.Headers.base" :=
    hwf _ (mapGet_mem hh)
  have hk0 : (to_payload hdrs hpay).kind = PayloadKind.CrtHeaders := by
    simp [to_payload, hid, headersKey_contains]
  have hlib : ∀ p ∈ opts.filterMap (fun o => o), p.kind =
      (if strContains ver "Headers" = true then PayloadKind.CrtHeaders
       else PayloadKind.CrtLibs) := by
    intro p hp
    rw [List.mem_filterMap] at hp
    obtain ⟨o, ho, hoo⟩ := hp
    subst hoo
    obtain ⟨av, hav, havo⟩ := forall₂_mem_right (exMapM_ok_iff.mp hopts) ho
    rcases crtLibOne_ok_inv havo with hnone | ⟨item, pl, hm, hpl, hsome⟩
    · cases hnone
    · rw [Option.some.injEq] at hsome
      subst hsome
      have hiid : item.id = mkCrtLibId ver av.1 av.2
          (decide (variants &&& Variant.val Variant.Spectre ≠ 0)) :=
        hwf _ (mapGet_mem hm)
      have hvs := mem_variantIter (mem_crtCombos.mp hav).2
      have hcontains := mkCrtLibId_contains_headers ver av.1 av.2 hvs
        (decide (variants &&& Variant.val Variant.Spectre ≠ 0))
      simp only [to_payload, hiid, hcontains]
  rw [List.map_cons, hk0]
  have hrep : (opts.filterMap (fun o => o)).map Payload.kind =
      List.replicate (opts.filterMap (fun o => o)).length
        (if strContains ver "Headers" = true then PayloadKind.CrtHeaders
         else PayloadKind.CrtLibs) := by
    rw [List.eq_replicate_iff]
    refine ⟨by simp, ?_⟩
    intro b hb
    rw [List.mem_map] at hb
    obtain ⟨p, hp, rfl⟩ := hb
    exact hlib p hp
  rw [hrep]
  simp

theorem get_sdk_kinds {pkgs : PkgMap} {arches : Nat} {l : List Payload}
    (h : get_sdk pkgs arches = Except.ok l) :
    ∃ n m, l.map Payload.kind =
      PayloadKind.SdkHeaders :: PayloadKind.SdkHeaders ::
        (List.replicate n PayloadKind.SdkHeaders ++
          List.replicate m PayloadKind.SdkLibs ++
          [PayloadKind.SdkStoreLibs, PayloadKind.Ucrt]) := by
  obtain ⟨sdk, h1, h2, aH, aL, sl, uc, msi, hmax, hh1, hh2, haH, haL, hsl, huc, hmsi,
    rfl⟩ := get_sdk_ok_iff.mp h
  refine ⟨aH.length, aL.length, ?_⟩
  have hkH : ∀ p ∈ aH, p.kind = PayloadKind.SdkHeaders := by
    intro p hp
    obtain ⟨a, ha, hone⟩ := forall₂_mem_right (exMapM_ok_iff.mp haH) hp
    unfold sdkArchHeaderOne at hone
    split at hone
    · rw [Except.ok.injEq] at hone
      subst hone
      rfl
    · cases hone
  have hkL : ∀ p ∈ aL, p.kind = PayloadKind.SdkLibs := by
    intro p hp
    obtain ⟨a, ha, hone⟩ := forall₂_mem_right (exMapM_ok_iff.mp haL) hp
    unfold sdkArchLibOne at hone
    split at hone
    · rw [Except.ok.injEq] at hone
      subst hone
      rfl
    · cases hone
  have hrepH : aH.map Payload.kind = List.replicate aH.length PayloadKind.SdkHeaders := by
    rw [List.eq_replicate_iff]
    refine ⟨by simp, ?_⟩
    intro b hb
    rw [List.mem_map] at hb
    obtain ⟨p, hp, rfl⟩ := hb
    exact hkH p hp
  have hrepL : aL.map Payload.kind = List.replicate aL.length PayloadKind.SdkLibs := by
    rw [List.eq_replicate_iff]
    refine ⟨by simp, ?_⟩
    intro b hb
    rw [List.mem_map] at hb
    obtain ⟨p, hp, rfl⟩ := hb
    exact hkL p hp
  simp [sdkGenericHeadersPayload, sdkStoreHeadersPayload, sdkStoreLibsPayload,
    ucrtPayload, hrepH, hrepL]

/-- C2: on every successful resolution of a well-formed (id-keyed) manifest,
the payload kinds appear in the fixed stage order: CrtHeaders, then CrtLibs,
then SdkHeaders, then SdkLibs, then SdkStoreLibs, then Ucrt. -/
theorem claim_c2 (pkgs : PkgMap) (arches variants : Nat) (res : List Payload)
    (hwf : PkgsWF pkgs) (ha : arches ≠ 0) (hv : variants ≠ 0)
    (h : prune_pkg_list pkgs arches variants = Except.ok res) :
    (res.map (fun p => kindIdx p.kind)).Pairwise (· ≤ ·) := by
  obtain ⟨c, s, hc, hs, rfl⟩ := prune_ok_iff.mp h
  obtain ⟨k, hk01, hck⟩ := get_crt_kinds hwf hc
  obtain ⟨n, m, hsk⟩ := get_sdk_kinds hs
  have e1 : (c ++ s).map (fun p => kindIdx p.kind) =
      ((c.map Payload.kind).map kindIdx) ++ ((s.map Payload.kind).map kindIdx) := by
    simp only [List.map_append, List.map_map, Function.comp_def]
  rw [e1, hck, hsk]
  rcases hk01 with rfl | rfl <;>
    simp [List.pairwise_append, List.pairwise_cons, List.mem_append, List.mem_replicate,
      List.mem_cons, List.map_replicate, kindIdx] <;>
    (repeat' apply And.intro) <;> intros <;> omega

/-! ## Claim C3 -/

theorem str_append_left_cancel {a b c : String} (h : a ++ b = a ++ c) : b = c := by
  apply str_ext
  have h2 := congrArg String.data h
  rw [str_data_append, str_data_append] at h2
  exact List.append_cancel_left h2

theorem forall₂_map_eq {α β γ : Type} {R : α → β → Prop} {f : α → γ} {g : β → γ}
    {l : List α} {r : List β}
    (hfg : ∀ a b, R a b → g b = f a) (h : List.Forall₂ R l r) :
    r.map g = l.map f := by
  induction h with
  | nil => rfl
  | cons hR hFa ih => simp [ih, hfg _ _ hR]

theorem sdkArchHeaderOne_ok {sdk : ManifestItem} {a : Arch} {p : Payload}
    (h : sdkArchHeaderOne sdk a = Except.ok p) :
    ∃ pl, sdk.payloads.find? (sdkArchHdrPred a) = some pl ∧
      p = sdkArchHeadersPayload sdk a pl := by
  unfold sdkArchHeaderOne at h
  split at h
  · next pl hpl =>
    rw [Except.ok.injEq] at h
    exact ⟨pl, hpl, h.symm⟩
  · cases h

theorem sdkArchLibOne_ok {sdk : ManifestItem} {a : Arch} {p : Payload}
    (h : sdkArchLibOne sdk a = Except.ok p) :
    ∃ pl, sdk.payloads.find? (sdkArchLibPred a) = some pl ∧
      p = sdkLibsPayload sdk a pl := by
  unfold sdkArchLibOne at h
  split at h
  · next pl hpl =>
    rw [Except.ok.injEq] at h
    exact ⟨pl, hpl, h.symm⟩
  · cases h

/-- The suffixes (after the SDK item id) of the synthesized SDK payload file
names, in emission order. -/
def sdkSuffixes (arches : Nat) : List String :=
  "_headers.msi" :: "_store_headers.msi" ::
    (((Arch.iter arches).filter (fun a => decide (a ≠ Arch.X86))).map
        (fun a => "_" ++ a.as_ms_str ++ "_headers.msi") ++
      (Arch.iter arches).map (fun a => "_libs_" ++ a.as_str ++ ".msi") ++
      ["_store_libs.msi"])

/-- The same suffixes over the full architecture list. -/
def sdkSuffixesFull : List String :=
  "_headers.msi" :: "_store_headers.msi" ::
    ([Arch.X86, Arch.X86_64, Arch.Aarch, Arch.Aarch64].map
        (fun a => "_" ++ a.as_ms_str ++ "_headers.msi") ++
      [Arch.X86, Arch.X86_64, Arch.Aarch, Arch.Aarch64].map
        (fun a => "_libs_" ++ a.as_str ++ ".msi") ++
      ["_store_libs.msi"])

theorem sdkSuffixes_sublist (arches : Nat) :
    List.Sublist (sdkSuffixes arches) sdkSuffixesFull := by
  unfold sdkSuffixes sdkSuffixesFull
  refine List.Sublist.cons₂ _ (List.Sublist.cons₂ _ ?_)
  refine List.Sublist.append (List.Sublist.append ?_ ?_) (List.Sublist.refl _)
  · exact List.Sublist.map _ ((List.filter_sublist _).trans (List.filter_sublist _))
  · exact List.Sublist.map _ (List.filter_sublist _)

theorem sdkSuffixesFull_facts :
    sdkSuffixesFull.Nodup ∧ (∀ x ∈ sdkSuffixesFull, 8 < x.length) ∧
      (∀ x ∈ sdkSuffixesFull, strEnds x ".msi" = true) := by decide

theorem strEnds_append_right {x s : String} (h : strEnds s ".msi" = true) :
    strEnds (x ++ s) ".msi" = true := by
  unfold strEnds at h ⊢
  rw [List.isSuffixOf_iff_suffix] at h ⊢
  rw [str_data_append]
  exact h.trans (List.suffix_append x.data s.data)

theorem append_ne_ucrt {x s : String} (hlen : 8 < s.length) : x ++ s ≠ "ucrt.msi" := by
  intro h
  have h2 := congrArg String.length h
  rw [String.length_append] at h2
  have hu : ("ucrt.msi" : String).length = 8 := rfl
  rw [hu] at h2
  omega

theorem get_sdk_names {pkgs : PkgMap} {arches : Nat} {l : List Payload}
    (h : get_sdk pkgs arches = Except.ok l) :
    ∃ sdk : ManifestItem, l.map Payload.filename =
        (sdkSuffixes arches).map (fun x => sdk.id ++ x) ++ ["ucrt.msi"] ∧
      ∀ p ∈ l,
        (p.target_arch = none ∨ ∃ a, a ∈ Arch.iter arches ∧ p.target_arch = some a) ∧
        p.variant = none := by
  obtain ⟨sdk, h1, h2, aH, aL, sl, uc, msi, hmax, hh1, hh2, haH, haL, hsl, huc, hmsi,
    rfl⟩ := get_sdk_ok_iff.mp h
  refine ⟨sdk, ?_, ?_⟩
  · have hA : aH.map Payload.filename =
        ((Arch.iter arches).filter (fun a => decide (a ≠ Arch.X86))).map
          (fun a => sdk.id ++ ("_" ++ a.as_ms_str ++ "_headers.msi")) := by
      refine forall₂_map_eq ?_ (exMapM_ok_iff.mp haH)
      intro a p hap
      obtain ⟨pl, _, rfl⟩ := sdkArchHeaderOne_ok hap
      simp [sdkArchHeadersPayload, String.append_assoc]
    have hL : aL.map Payload.filename =
        (Arch.iter arches).map (fun a => sdk.id ++ ("_libs_" ++ a.as_str ++ ".msi")) := by
      refine forall₂_map_eq ?_ (exMapM_ok_iff.mp haL)
      intro a p hap
      obtain ⟨pl, _, rfl⟩ := sdkArchLibOne_ok hap
      simp [sdkLibsPayload, String.append_assoc]
    simp only [List.map_cons, List.map_append, List.map_nil, hA, hL,
      sdkGenericHeadersPayload, sdkStoreHeadersPayload, sdkStoreLibsPayload, ucrtPayload,
      sdkSuffixes, List.map_map]
    simp [Function.comp_def, List.append_assoc]
  · intro p hp
    rcases List.mem_cons.mp hp with rfl | hp
    · exact ⟨Or.inl rfl, rfl⟩
    rcases List.mem_cons.mp hp with rfl | hp
    · exact ⟨Or.inl rfl, rfl⟩
    rcases List.mem_append.mp hp with hp | hp
    · rcases List.mem_append.mp hp with hp | hp
      · obtain ⟨a, ha, hone⟩ := forall₂_mem_right (exMapM_ok_iff.mp haH) hp
        obtain ⟨pl, _, rfl⟩ := sdkArchHeaderOne_ok hone
        exact ⟨Or.inr ⟨a, List.mem_of_mem_filter ha, rfl⟩, rfl⟩
      · obtain ⟨a, ha, hone⟩ := forall₂_mem_right (exMapM_ok_iff.mp haL) hp
        obtain ⟨pl, _, rfl⟩ := sdkArchLibOne_ok hone
        exact ⟨Or.inr ⟨a, ha, rfl⟩, rfl⟩
    · rcases List.mem_cons.mp hp with rfl | hp
      · exact ⟨Or.inl rfl, rfl⟩
      rcases List.mem_cons.mp hp with rfl | hp
      · exact ⟨Or.inl rfl, rfl⟩
      cases hp

theorem pre_cons_of_append (p : List Char) (c : Char) (rest : List Char) :
    p ++ [c] <+: p ++ c :: rest := ⟨rest, by simp⟩

theorem strStarts_headersKey (ver : String) :
    strStarts ("Microsoft.VC." ++ ver ++ ".CRT.Headers.base") "Microsoft.VC." = true := by
  unfold strStarts
  rw [List.isPrefixOf_iff_prefix, str_data_append, str_data_append]
  exact (List.prefix_append _ _).trans (List.prefix_append _ _)

theorem strStarts_mkCrtLibId (ver : String) (arch : Arch) (vs : String) (sp : Bool) :
    strStarts (mkCrtLibId ver arch vs sp) "Microsoft.VC." = true := by
  unfold strStarts
  rw [List.isPrefixOf_iff_prefix, mkCrtLibId_data]
  have e : ("Microsoft.VC.".data : List Char) = "Microsoft.VC".data ++ ['.'] := rfl
  rw [e]
  exact pre_cons_of_append _ _ _

theorem get_crt_payloads {pkgs : PkgMap} {arches variants : Nat} {l : List Payload}
    (h : get_crt pkgs arches variants = Except.ok l) :
    ∀ p ∈ l, ∃ key item pl, strStarts key "Microsoft.VC." = true ∧
      mapGet pkgs key = some item ∧ pl ∈ item.payloads ∧
      p = to_payload item pl := by
  obtain ⟨bt, ver, hdrs, hpay, opts, hbt, hver, hh, hhead, hopts, rfl⟩ :=
    get_crt_ok_iff.mp h
  intro p hp
  rcases List.mem_cons.mp hp with rfl | hp
  · exact ⟨_, hdrs, hpay, strStarts_headersKey ver, hh,
      List.mem_of_mem_head? (Option.mem_def.mpr hhead), rfl⟩
  · rw [List.mem_filterMap] at hp
    obtain ⟨o, ho, hoo⟩ := hp
    subst hoo
    obtain ⟨av, hav, havo⟩ := forall₂_mem_right (exMapM_ok_iff.mp hopts) ho
    rcases crtLibOne_ok_inv havo with hnone | ⟨item, pl, hm, hpl, hsome⟩
    · cases hnone
    · rw [Option.some.injEq] at hsome
      subst hsome
      exact ⟨_, item, pl, strStarts_mkCrtLibId ver av.1 av.2 _, hm,
        List.mem_of_mem_head? (Option.mem_def.mpr hpl), rfl⟩

/-- C3 counterexample data: two CRT packages declaring the same payload file
name. -/
def cexHp : ManifestPayload :=
  { file_name := "dup.vsix", sha256 := "01", url := "u1", size := 1 }

/-- C3 counterexample data: the colliding desktop-libs payload. -/
def cexDp : ManifestPayload :=
  { file_name := "dup.vsix", sha256 := "02", url := "u2", size := 2 }

/-- C3 counterexample CRT headers item. -/
def cexCrtHeaders : ManifestItem :=
  { id := "Microsoft.VC.14.29.16.10.CRT.Headers.base"
    dependencies := []
    payloads := [cexHp]
    install_sizes := none }

/-- C3 counterexample CRT desktop-libs item. -/
def cexCrtDesktop : ManifestItem :=
  { id := "Microsoft.VC.14.29.16.10.CRT.x64.Desktop.base"
    dependencies := []
    payloads := [cexDp]
    install_sizes := none }

/-- C3 counterexample manifest: resolution succeeds but two resolved payloads
share the file name "dup.vsix". -/
def cexPkgs : PkgMap :=
  [("Microsoft.VC.14.29.16.10.CRT.Headers.base", cexCrtHeaders),
   ("Microsoft.VC.14.29.16.10.CRT.x64.Desktop.base", cexCrtDesktop),
   ("Microsoft.VisualStudio.Product.BuildTools", demoBt),
   ("Microsoft.Windows.UniversalCRT.HeadersLibsSources.Msi", demoUcrt),
   ("Win10SDK_10.0.19041", demoSdk)]

/-- The payload list resolved from the counterexample manifest. -/
def cexResolved : List Payload :=
  match prune_pkg_list cexPkgs 2 1 with
  | Except.ok l => l
  | Except.error _ => []

/-- C3 counterexample: with non-zero masks {x86_64} and {desktop}, resolution
of `cexPkgs` succeeds yet the returned filenames are not pairwise distinct,
refuting the claim as stated. -/
theorem claim_c3_counterexample :
    (2 : Nat) ≠ 0 ∧ (1 : Nat) ≠ 0 ∧
    prune_pkg_list cexPkgs 2 1 = Except.ok cexResolved ∧
    ¬ (cexResolved.map Payload.filename).Nodup :=
  ⟨by decide, by decide, rfl, by decide⟩

/-- C3 amended: on any successful resolution, the payload list is the CRT part
followed by the SDK part; its filenames are pairwise distinct provided the
CRT-side filenames (drawn from the manifest) are pairwise distinct and none
ends in ".msi" (the synthesized SDK names all do); and every payload's arch
(resp. variant), when set, lies in the requested arch mask (resp. is Store or
lies in the variant mask), provided the manifest's payload file-name tokens
are consistent with the requested masks. -/
theorem claim_c3 (pkgs : PkgMap) (arches variants : Nat) (crtL sdkL : List Payload)
    (ha : arches ≠ 0) (hv : variants ≠ 0)
    (hc : get_crt pkgs arches variants = Except.ok crtL)
    (hs : get_sdk pkgs arches = Except.ok sdkL)
    (hnodupcrt : (crtL.map Payload.filename).Nodup)
    (hmsi : ∀ p ∈ crtL, strEnds p.filename ".msi" = false)
    (hdet : ∀ e ∈ pkgs, strStarts e.1 "Microsoft.VC." = true → ∀ pl ∈ e.2.payloads,
      (∀ a, detectArch pl.file_name = some a → a.val &&& arches ≠ 0) ∧
      (∀ vv, detectVariant pl.file_name = some vv →
        vv = Variant.Store ∨ vv.val &&& variants ≠ 0)) :
    prune_pkg_list pkgs arches variants = Except.ok (crtL ++ sdkL) ∧
    ((crtL ++ sdkL).map Payload.filename).Nodup ∧
    ∀ p ∈ crtL ++ sdkL,
      (∀ a, p.target_arch = some a → a.val &&& arches ≠ 0) ∧
      (∀ vv, p.variant = some vv → vv = Variant.Store ∨ vv.val &&& variants ≠ 0) := by
  obtain ⟨sdk, hnames, hmem⟩ := get_sdk_names hs
  obtain ⟨hfullNodup, hfullLen, hfullMsi⟩ := sdkSuffixesFull_facts
  have hsubset : ∀ x ∈ sdkSuffixes arches, x ∈ sdkSuffixesFull :=
    fun x hx => (sdkSuffixes_sublist arches).subset hx
  have hsufNodup : (sdkSuffixes arches).Nodup :=
    hfullNodup.sublist (sdkSuffixes_sublist arches)
  have hmapNodup : ((sdkSuffixes arches).map (fun x => sdk.id ++ x)).Nodup :=
    List.Nodup.map (fun x y hxy => str_append_left_cancel hxy) hsufNodup
  have hsdkNodup : (sdkL.map Payload.filename).Nodup := by
    rw [hnames, List.nodup_append]
    refine ⟨hmapNodup, by simp, ?_⟩
    intro a hamem hamem2
    rw [List.mem_map] at hamem
    obtain ⟨x, hx, rfl⟩ := hamem
    rw [List.mem_singleton] at hamem2
    exact append_ne_ucrt (hfullLen x (hsubset x hx)) hamem2
  have hsdkMsi : ∀ q ∈ sdkL.map Payload.filename, strEnds q ".msi" = true := by
    intro q hq
    rw [hnames] at hq
    rcases List.mem_append.mp hq with hq | hq
    · rw [List.mem_map] at hq
      obtain ⟨x, hx, rfl⟩ := hq
      exact strEnds_append_right (hfullMsi x (hsubset x hx))
    · rw [List.mem_singleton] at hq
      subst hq
      decide
  refine ⟨prune_ok_iff.mpr ⟨crtL, sdkL, hc, hs, rfl⟩, ?_, ?_⟩
  · rw [List.map_append, List.nodup_append]
    refine ⟨hnodupcrt, hsdkNodup, ?_⟩
    intro a hamem hamem2
    rw [List.mem_map] at hamem
    obtain ⟨p, hp, rfl⟩ := hamem
    have h1 := hmsi p hp
    have h2 := hsdkMsi _ hamem2
    rw [h1] at h2
    cases h2
  · intro p hp
    rcases List.mem_append.mp hp with hp | hp
    · obtain ⟨key, item, pl, hkey, hm, hplmem, rfl⟩ := get_crt_payloads hc p hp
      have hd := hdet (key, item) (mapGet_mem hm) hkey pl hplmem
      constructor
      · intro a hax
        apply hd.1 a
        simpa [to_payload] using hax
      · intro vv hvv
        apply hd.2 vv
        simpa [to_payload] using hvv
    · have hm2 := hmem p hp
      constructor
      · intro a hax
        rcases hm2.1 with hnone | ⟨a', ha', hsome⟩
        · rw [hnone] at hax; cases hax
        · rw [hsome, Option.some.injEq] at hax
          subst hax
          exact mem_archIter.mp ha'
      · intro vv hvv
        rw [hm2.2] at hvv
        cases hvv

/-- The CRT payload list resolved from the demo manifest. -/
def demoCrtL : List Payload :=
  match get_crt demoPkgs 2 1 with
  | Except.ok l => l
  | Except.error _ => []

/-- The SDK payload list resolved from the demo manifest. -/
def demoSdkL : List Payload :=
  match get_sdk demoPkgs 2 with
  | Except.ok l => l
  | Except.error _ => []

/-- Witness for (amended) C3 at the demo manifest. -/
theorem claim_c3_witness :
    prune_pkg_list demoPkgs 2 1 = Except.ok (demoCrtL ++ demoSdkL) ∧
    ((demoCrtL ++ demoSdkL).map Payload.filename).Nodup ∧
    ∀ p ∈ demoCrtL ++ demoSdkL,
      (∀ a, p.target_arch = some a → a.val &&& 2 ≠ 0) ∧
      (∀ vv, p.variant = some vv → vv = Variant.Store ∨ vv.val &&& 1 ≠ 0) :=
  claim_c3 demoPkgs 2 1 demoCrtL demoSdkL (by decide) (by decide) (by rfl) (by rfl)
    (by decide) (by decide) (by decide)

/-- Witness for C2 at the demo manifest. -/
theorem claim_c2_witness :
    (demoResolved.map (fun p => kindIdx p.kind)).Pairwise (· ≤ ·) :=
  claim_c2 demoPkgs 2 1 demoResolved
    (by
      intro e he
      simp only [demoPkgs, List.mem_cons, List.not_mem_nil, or_false] at he
      rcases he with rfl | rfl | rfl | rfl | rfl | rfl <;> rfl)
    (by decide) (by decide) (by rfl)
